import Mathlib

/-!
Verification of the `dist` package's Normal distribution (gonum).

This file gives a shallow embedding, over the real numbers, of the Go code in
the repository: the Normal distribution value type, its closed-form operations
(CDF, Survival, LogProb, DLogProbDParam, Quantile), the rational-polynomial
quantile kernel (`rateval`, `zQuantSmall`, `zQuantIntermediate`, `zQuantTail`,
`zQuantile`) and the fitting procedure (`Fit`, `FitPrior`).

Modelling conventions:
* `float64` values are modelled as real numbers (`ℝ`); the IEEE infinities
  produced by the quantile routine are modelled by the `Xreal` type.
* Go panics are modelled by `Except DistErr`: a function that can panic
  returns `Except.error k` where `k` names the panic site.  Out-of-range
  slice indexing is modelled by the fallible `idx`.
* The statistics collaborator (`stat.Mean`, `stat.Moment`, `floats.Sum`) is
  not part of this repository; it is modelled from the spec's description of
  its interface (weighted mean, uncorrected weighted second central moment).
* The error-function collaborator (`math.Erf`) is passed as an explicit
  function argument to `CDF` and `Survival`.
-/

namespace dist

/-- Kinds of abort-style faults raised by the package.  Each constructor
corresponds to one panic site (or, for `indexOutOfRange`, to the Go runtime
fault raised by an out-of-bounds slice access); the original panic messages
are recorded in the comments. -/
inductive DistErr where
  /-- panic in `FitPrior`: slice size mismatch (weights vs samples) -/
  | sliceSizeMismatch
  /-- panic in `FitPrior`: mismatch in prior lengths -/
  | priorLengthMismatch
  /-- panic in `FitPrior`: too many prior values -/
  | tooManyPriorValues
  /-- panic in `FitPrior`: prior weight provided but not the value -/
  | priorWeightWithoutValue
  /-- panic in `FitPrior`: prior value provided but not the weight -/
  | priorValueWithoutWeight
  /-- Go runtime fault: index out of range -/
  | indexOutOfRange
  /-- panic in `DLogProbDParam`: slice length mismatch -/
  | sliceLengthMismatch
  /-- panic in `Quantile`: percentile out of bounds -/
  | percentileOutOfBounds
  deriving DecidableEq

/-- The Normal distribution value type: `Mu` is the mean, `Sigma` the
standard deviation.  The optional random source of the Go struct plays no
role in any of the operations verified here and is omitted. -/
structure Normal where
  Mu : ℝ
  Sigma : ℝ

/-- Checked slice indexing: models a Go slice access `l[n]`, which raises a
runtime fault when `n` is out of range. -/
def idx (l : List ℝ) (n : Nat) : Except DistErr ℝ :=
  match l[n]? with
  | some x => Except.ok x
  | none => Except.error DistErr.indexOutOfRange

/-- NumParameters returns the number of parameters in the distribution. -/
def NumParameters : Nat := 2

/-- The constant `negLogRoot2Pi = -log(sqrt(2*pi))`; the Go source writes it
as a decimal literal with that exact mathematical value. -/
noncomputable def negLogRoot2Pi : ℝ := -Real.log (Real.sqrt (2 * Real.pi))

/-- LogProb computes the natural logarithm of the value of the probability
density function at x. -/
noncomputable def LogProb (n : Normal) (x : ℝ) : ℝ :=
  negLogRoot2Pi - Real.log n.Sigma - (x - n.Mu) * (x - n.Mu) / (2 * n.Sigma * n.Sigma)

/-- CDF computes the value of the cumulative density function at x.  The
error function `math.Erf` is an external collaborator, passed explicitly. -/
noncomputable def CDF (erf : ℝ → ℝ) (n : Normal) (x : ℝ) : ℝ :=
  0.5 * (1 + erf ((x - n.Mu) / (n.Sigma * Real.sqrt 2)))

/-- Survival returns the survival function (complementary CDF) at x, in the
separate complementary form `0.5 * (1 - erf(...))` of the source, not as
`1 - CDF x`. -/
noncomputable def Survival (erf : ℝ → ℝ) (n : Normal) (x : ℝ) : ℝ :=
  0.5 * (1 - erf ((x - n.Mu) / (n.Sigma * Real.sqrt 2)))

/-- DLogProbDParam returns the derivative of the log of the probability with
respect to the parameters of the distribution, written into a caller-provided
slice of length `NumParameters`; the result models the final contents of that
slice.  The two components are transcribed verbatim from the source. -/
noncomputable def DLogProbDParam (n : Normal) (x : ℝ) (deriv : List ℝ) :
    Except DistErr (List ℝ) :=
  if deriv.length ≠ NumParameters then Except.error DistErr.sliceLengthMismatch
  else Except.ok
    [n.Mu * (x - n.Mu) / (n.Sigma * n.Sigma),
     1 / n.Sigma * (-1 + (x - n.Mu) * (x - n.Mu) / 2)]

/-- The coefficient tables of the quantile kernel (central region numerator). -/
def zQuantSmallA : List ℝ :=
  [3.387132872796366608, 133.14166789178437745, 1971.5909503065514427,
   13731.693765509461125, 45921.953931549871457, 67265.770927008700853,
   33430.575583588128105, 2509.0809287301226727]

/-- Central region denominator table. -/
def zQuantSmallB : List ℝ :=
  [1.0, 42.313330701600911252, 687.1870074920579083, 5394.1960214247511077,
   21213.794301586595867, 39307.89580009271061, 28729.085735721942674,
   5226.495278852854561]

/-- Intermediate-tail numerator table. -/
def zQuantInterA : List ℝ :=
  [1.42343711074968357734, 4.6303378461565452959, 5.7694972214606914055,
   3.64784832476320460504, 1.27045825245236838258, 0.24178072517745061177,
   0.0227238449892691845833, 7.7454501427834140764e-4]

/-- Intermediate-tail denominator table. -/
def zQuantInterB : List ℝ :=
  [1.0, 2.05319162663775882187, 1.6763848301838038494, 0.68976733498510000455,
   0.14810397642748007459, 0.0151986665636164571966, 5.475938084995344946e-4,
   1.05075007164441684324e-9]

/-- Extreme-tail numerator table. -/
def zQuantTailA : List ℝ :=
  [6.6579046435011037772, 5.4637849111641143699, 1.7848265399172913358,
   0.29656057182850489123, 0.026532189526576123093, 0.0012426609473880784386,
   2.71155556874348757815e-5, 2.01033439929228813265e-7]

/-- Extreme-tail denominator table. -/
def zQuantTailB : List ℝ :=
  [1.0, 0.59983220655588793769, 0.13692988092273580531, 0.0148753612908506148525,
   7.868691311456132591e-4, 1.8463183175100546818e-5, 1.4215117583164458887e-7,
   2.04426310338993978564e-15]

/-- Horner evaluation of a polynomial given by its coefficient list
(index 0 is the constant term): this is the loop of `rateval`, which starts
from the last coefficient and folds down to the constant term. -/
def horner (x : ℝ) : List ℝ → ℝ
  | [] => 0
  | [c] => c
  | c :: rest => x * horner x rest + c

/-- rateval evaluates the ratio of the two polynomials with coefficient
slices `a` and `b` at `x` by Horner's method.  (The Go function also receives
the lengths `na`, `nb`, which equal `len(a)` and `len(b)` at every call
site.) -/
noncomputable def rateval (a b : List ℝ) (x : ℝ) : ℝ :=
  horner x a / horner x b

/-- zQuantSmall: central-region standardized quantile, `q = p - 0.5`. -/
noncomputable def zQuantSmall (q : ℝ) : ℝ :=
  let r := 0.180625 - q * q
  q * rateval zQuantSmallA zQuantSmallB r

/-- zQuantIntermediate: intermediate-tail standardized quantile. -/
noncomputable def zQuantIntermediate (r : ℝ) : ℝ :=
  rateval zQuantInterA zQuantInterB (r - 1.6)

/-- zQuantTail: extreme-tail standardized quantile. -/
noncomputable def zQuantTail (r : ℝ) : ℝ :=
  rateval zQuantTailA zQuantTailB (r - 5.0)

/-- Extended real values: models the `float64` results of the quantile
routine, which can be a signed infinity (`math.Inf`) or, for degenerate
parameters, a NaN. -/
inductive Xreal where
  | nan
  | neg_inf
  | finite (r : ℝ)
  | pos_inf

/-- Models the Go expression `mu + sigma*z` for finite `mu`, `sigma` and an
extended-real `z`, following IEEE-754: a finite number plus/times an infinity
keeps the infinity (with the sign of `sigma` folded in), and `0 * inf` is
NaN. -/
noncomputable def xaffine (mu sigma : ℝ) : Xreal → Xreal
  | Xreal.nan => Xreal.nan
  | Xreal.neg_inf =>
      if 0 < sigma then Xreal.neg_inf
      else if sigma < 0 then Xreal.pos_inf else Xreal.nan
  | Xreal.pos_inf =>
      if 0 < sigma then Xreal.pos_inf
      else if sigma < 0 then Xreal.neg_inf else Xreal.nan
  | Xreal.finite r => Xreal.finite (mu + sigma * r)

/-- zQuantile computes the quantile in normalized units. -/
noncomputable def zQuantile (p : ℝ) : Xreal :=
  if p = 1 then Xreal.pos_inf
  else if p = 0 then Xreal.neg_inf
  else
    let dp := p - 0.5
    if |dp| ≤ 0.425 then Xreal.finite (zQuantSmall dp)
    else
      let pp := if p < 0.5 then p else 1 - p
      let r := Real.sqrt (-Real.log pp)
      let x := if r ≤ 5.0 then zQuantIntermediate r else zQuantTail r
      if p < 0.5 then Xreal.finite (-x) else Xreal.finite x

/-- Quantile returns the inverse of the cumulative probability distribution:
it panics when `p` is outside `[0,1]` and otherwise returns
`Mu + Sigma * zQuantile p`. -/
noncomputable def Quantile (n : Normal) (p : ℝ) : Except DistErr Xreal :=
  if p < 0 ∨ p > 1 then Except.error DistErr.percentileOutOfBounds
  else Except.ok (xaffine n.Mu n.Sigma (zQuantile p))

/-- Modelled from the spec: the statistics collaborator's weighted
arithmetic mean (`stat.Mean`), which is not part of this repository.  With an
empty weight list every sample has weight 1; otherwise it is the
weight-weighted mean. -/
noncomputable def statMean (samples weights : List ℝ) : ℝ :=
  if weights = [] then samples.sum / samples.length
  else (List.zipWith (fun x w => x * w) samples weights).sum / weights.sum

/-- Modelled from the spec: the statistics collaborator's uncorrected
(population, not Bessel-corrected) weighted second central moment
(`stat.Moment(2, samples, mean, weights)`), which is not part of this
repository. -/
noncomputable def statMoment (samples : List ℝ) (mean : ℝ) (weights : List ℝ) : ℝ :=
  if weights = [] then (samples.map (fun x => (x - mean) ^ 2)).sum / samples.length
  else (List.zipWith (fun x w => w * (x - mean) ^ 2) samples weights).sum / weights.sum

/-- The arithmetic part of `FitPrior`, after the validation checks: `prior`
is the flag the Go code sets from the prior lengths.  Slice accesses
`priorValue[i]`, `priorWeight[i]` go through the checked `idx`, in source
order.  The result is the updated distribution together with the returned
`(newPriorValue, newPriorWeight)` pair. -/
noncomputable def fitPriorBody (samples weights priorValue priorWeight : List ℝ)
    (prior : Bool) : Except DistErr (Normal × List ℝ × List ℝ) := do
  let sampleMean := statMean samples weights
  let sampleVariance := statMoment samples sampleMean weights
  let sumWeights : ℝ :=
    if weights.length = 0 then (samples.length : ℝ) else weights.sum
  let (totalWeight, totalSum) ←
    if prior then do
      let pw0 ← idx priorWeight 0
      let pv0 ← idx priorValue 0
      pure (sumWeights + pw0, sampleMean * sumWeights + pv0 * pw0)
    else
      pure (sumWeights, sampleMean * sumWeights)
  let mu := totalSum / totalWeight
  let totalVariance ←
    if prior then do
      -- Variance from the prior samples, then the cross variance from the
      -- differences of the means.
      let pw1 ← idx priorWeight 1
      let pv1 ← idx priorValue 1
      let pv0 ← idx priorValue 0
      let meanDiff := sampleMean - pv0
      let pw0 ← idx priorWeight 0
      pure (sampleVariance * sumWeights + pw1 * pv1 * pv1
        + pw0 * sumWeights * meanDiff * meanDiff / totalWeight)
    else
      pure (sampleVariance * sumWeights)
  let sigma := Real.sqrt (totalVariance / totalWeight)
  let newPriorWeight ←
    if prior then do
      let pw0 ← idx priorWeight 0
      let pw1 ← idx priorWeight 1
      pure [sumWeights + pw0, sumWeights + pw1]
    else
      pure [sumWeights, sumWeights]
  pure (⟨mu, sigma⟩, [mu, sigma], newPriorWeight)

/-- FitPrior fits the distribution with a set of priors for the sufficient
statistics, mirroring the Go function: the validation checks in source
order, then the `prior` flag, then the arithmetic of `fitPriorBody`. -/
noncomputable def FitPrior (samples weights priorValue priorWeight : List ℝ) :
    Except DistErr (Normal × List ℝ × List ℝ) :=
  if weights.length ≠ 0 ∧ samples.length ≠ weights.length then
    Except.error DistErr.sliceSizeMismatch
  else if priorValue.length ≠ priorWeight.length then
    Except.error DistErr.priorLengthMismatch
  else if priorValue.length > 2 then
    Except.error DistErr.tooManyPriorValues
  else if priorValue.length = 0 ∨ priorWeight.length = 0 then
    (if priorValue.length = 0 ∧ priorWeight.length = 0 then
      fitPriorBody samples weights priorValue priorWeight false
    else if priorValue.length = 0 ∧ priorWeight.length ≠ 0 then
      Except.error DistErr.priorWeightWithoutValue
    else
      Except.error DistErr.priorValueWithoutWeight)
  else
    fitPriorBody samples weights priorValue priorWeight true

/-- Fit sets the parameters of the probability distribution from the data
samples with relative weights: `FitPrior` with no prior. -/
noncomputable def Fit (samples weights : List ℝ) :
    Except DistErr (Normal × List ℝ × List ℝ) :=
  FitPrior samples weights [] []

/-- The three-region quantile scheme exactly as the spec states it (spec
section 4.2, steps 2-5), written directly in terms of `rateval` and the six
coefficient tables; the dispatcher `zQuantile` is compared against it on
(0,1). -/
noncomputable def zQuantileSpec (p : ℝ) : ℝ :=
  let dp := p - 0.5
  if |dp| ≤ 0.425 then dp * rateval zQuantSmallA zQuantSmallB (0.180625 - dp ^ 2)
  else
    let pp := if p < 0.5 then p else 1 - p
    let r := Real.sqrt (-Real.log pp)
    let x :=
      if r ≤ 5.0 then rateval zQuantInterA zQuantInterB (r - 1.6)
      else rateval zQuantTailA zQuantTailB (r - 5.0)
    if p < 0.5 then -x else x

/-- Peeling the constant term off a polynomial-evaluation sum. -/
lemma sum_pow_cons (c : ℝ) (L : List ℝ) (x : ℝ) :
    ∑ i ∈ Finset.range (c :: L).length, (c :: L).getD i 0 * x ^ i
    = c + x * ∑ i ∈ Finset.range L.length, L.getD i 0 * x ^ i := by
  rw [List.length_cons, Finset.sum_range_succ']
  simp only [List.getD_cons_succ, List.getD_cons_zero, pow_zero, mul_one]
  rw [Finset.mul_sum, add_comm]
  congr 1
  refine Finset.sum_congr rfl fun i _ => ?_
  ring

/-- Horner evaluation agrees with the coefficient-weighted power sum. -/
lemma horner_eq_sum (x : ℝ) (l : List ℝ) :
    horner x l = ∑ i ∈ Finset.range l.length, l.getD i 0 * x ^ i := by
  induction l with
  | nil => simp [horner]
  | cons c rest ih =>
    cases rest with
    | nil => simp [horner]
    | cons r t =>
      rw [show horner x (c :: r :: t) = x * horner x (r :: t) + c from rfl, ih,
        sum_pow_cons c (r :: t) x]
      ring

/-- With length-1 prior slices the arithmetic part of `FitPrior` hits the
out-of-range access `priorWeight[1]`. -/
lemma fitPriorBody_one (s w : List ℝ) (a b : ℝ) :
    fitPriorBody s w [a] [b] true = Except.error DistErr.indexOutOfRange := rfl

/-- Without a prior the arithmetic part of `FitPrior` always succeeds. -/
lemma fitPriorBody_noPrior (s w pv pw : List ℝ) :
    ∃ out, fitPriorBody s w pv pw false = Except.ok out := ⟨_, rfl⟩

/-- With length-2 prior slices the arithmetic part of `FitPrior` always
succeeds. -/
lemma fitPriorBody_two (s w : List ℝ) (a b c d : ℝ) :
    ∃ out, fitPriorBody s w [a, b] [c, d] true = Except.ok out := ⟨_, rfl⟩

/-- C1: for every probability p strictly between 0 and 1, the standardized
quantile `zQuantile p` follows the three-region scheme exactly: with
`dp = p - 0.5`, if `|dp| ≤ 0.425` it returns
`dp * rateval(A_small, B_small, 0.180625 - dp^2)`; otherwise, with `pp = p`
when `p < 0.5` else `1 - p` and `r = sqrt(-ln pp)`, it evaluates
`rateval(A_inter, B_inter, r - 1.6)` when `r ≤ 5.0` and
`rateval(A_tail, B_tail, r - 5.0)` when `r > 5.0`, negating the result
exactly when `p < 0.5`. -/
theorem zQuantile_three_region (p : ℝ) (h0 : 0 < p) (h1 : p < 1) :
    zQuantile p = Xreal.finite (zQuantileSpec p) := by
  have hne1 : p ≠ 1 := ne_of_lt h1
  have hne0 : p ≠ 0 := ne_of_gt h0
  simp only [zQuantile, zQuantileSpec, zQuantSmall, zQuantIntermediate, zQuantTail]
  rw [if_neg hne1, if_neg hne0]
  by_cases hc : |p - 0.5| ≤ 0.425
  · simp only [if_pos hc]
    rw [show (0.180625 : ℝ) - (p - 0.5) * (p - 0.5) = 0.180625 - (p - 0.5) ^ 2 from by ring]
  · simp only [if_neg hc]
    by_cases hp : p < 0.5
    · simp only [if_pos hp]
    · simp only [if_neg hp]

/-- Witness for C1 at `p = 0.5`. -/
theorem zQuantile_three_region_witness :
    (0 : ℝ) < 0.5 ∧ (0.5 : ℝ) < 1 ∧
      zQuantile 0.5 = Xreal.finite (zQuantileSpec 0.5) :=
  ⟨by norm_num, by norm_num, zQuantile_three_region 0.5 (by norm_num) (by norm_num)⟩

/-- C2 (code bug): at `Mu = 0`, `Sigma = 1`, `x = 1` the code writes
`deriv = [0, -1/2]`, while the partial derivatives of `LogProb` with
respect to mean and scale at that point are `1` and `0` (third and fourth
conjuncts, and the claim's closed forms `(x-mean)/scale^2` and
`-1/scale + (x-mean)^2/scale^3` evaluated there in the last conjunct).  The
length check of the claim does hold (second conjunct). -/
theorem dLogProbDParam_code_bug :
    DLogProbDParam ⟨0, 1⟩ 1 [0, 0] = Except.ok [0, -(1 / 2 : ℝ)] ∧
    DLogProbDParam ⟨0, 1⟩ 1 [] = Except.error DistErr.sliceLengthMismatch ∧
    HasDerivAt (fun m : ℝ => LogProb ⟨m, 1⟩ 1) 1 0 ∧
    HasDerivAt (fun s : ℝ => LogProb ⟨0, s⟩ 1) 0 1 ∧
    ((1 - 0) / 1 ^ 2 = (1 : ℝ) ∧ -1 / 1 + (1 - 0) ^ 2 / 1 ^ 3 = (0 : ℝ)) := by
  refine ⟨?_, ?_, ?_, ?_, by norm_num, by norm_num⟩
  · unfold DLogProbDParam NumParameters
    norm_num
  · unfold DLogProbDParam NumParameters
    norm_num
  · have h0 : HasDerivAt (fun m : ℝ => 1 - m) (-1 : ℝ) 0 := (hasDerivAt_id 0).const_sub 1
    have h1 := ((h0.mul h0).div_const (2 * 1 * 1)).const_sub (negLogRoot2Pi - Real.log 1)
    exact h1.congr_deriv (by norm_num)
  · have hc : HasDerivAt (fun _ : ℝ => ((1 : ℝ) - 0) * (1 - 0)) 0 1 := hasDerivAt_const 1 _
    have hg : HasDerivAt (fun s : ℝ => 2 * s * s) (2 * 1 * 1 + 2 * 1 * 1) 1 := by
      have := ((hasDerivAt_id (1 : ℝ)).const_mul 2).mul (hasDerivAt_id (1 : ℝ))
      exact this.congr_deriv (by norm_num)
    have hq := hc.div hg (by norm_num : (2 * (1 : ℝ) * 1) ≠ 0)
    have hlog := Real.hasDerivAt_log (by norm_num : (1 : ℝ) ≠ 0)
    have h := ((hasDerivAt_const (1 : ℝ) negLogRoot2Pi).sub hlog).sub hq
    exact h.congr_deriv (by norm_num)

/-- C3: for every sample sequence with weights and length-2 prior
sufficient statistics, `FitPrior` forms the total variance as the
uncorrected weighted sample variance times the sample-weight sum, plus
`priorWeight[1] * priorValue[1]^2`, plus the cross term
`priorWeight[0] * sumWeights * (m - priorValue[0])^2 / totalWeight`; sets
the new scale to `sqrt(totalVariance / totalWeight)`; and returns value
`[newMean, newScale]` and weight
`[sumWeights + priorWeight[0], sumWeights + priorWeight[1]]`. -/
theorem fitPrior_prior_update (samples weights : List ℝ) (pv0 pv1 pw0 pw1 : ℝ)
    (h : weights.length = 0 ∨ samples.length = weights.length) :
    FitPrior samples weights [pv0, pv1] [pw0, pw1] =
      (let m := statMean samples weights
       let v := statMoment samples m weights
       let sumWeights : ℝ :=
         if weights.length = 0 then (samples.length : ℝ) else weights.sum
       let totalWeight := sumWeights + pw0
       let newMean := (m * sumWeights + pv0 * pw0) / totalWeight
       let totalVariance := v * sumWeights + pw1 * pv1 ^ 2
         + pw0 * sumWeights * (m - pv0) ^ 2 / totalWeight
       let newScale := Real.sqrt (totalVariance / totalWeight)
       Except.ok (⟨newMean, newScale⟩, [newMean, newScale],
         [sumWeights + pw0, sumWeights + pw1])) := by
  have h1 : ¬(weights.length ≠ 0 ∧ samples.length ≠ weights.length) := by
    rcases h with h | h <;> simp [h]
  have h2 : FitPrior samples weights [pv0, pv1] [pw0, pw1]
      = fitPriorBody samples weights [pv0, pv1] [pw0, pw1] true := by
    unfold FitPrior
    rw [if_neg h1]
    norm_num
  have h3 : fitPriorBody samples weights [pv0, pv1] [pw0, pw1] true =
      (let m := statMean samples weights
       let v := statMoment samples m weights
       let sumWeights : ℝ :=
         if weights.length = 0 then (samples.length : ℝ) else weights.sum
       let totalWeight := sumWeights + pw0
       let mu := (m * sumWeights + pv0 * pw0) / totalWeight
       let tV := v * sumWeights + pw1 * pv1 * pv1
         + pw0 * sumWeights * (m - pv0) * (m - pv0) / totalWeight
       let sigma := Real.sqrt (tV / totalWeight)
       Except.ok (⟨mu, sigma⟩, [mu, sigma], [sumWeights + pw0, sumWeights + pw1])) := rfl
  rw [h2, h3]
  dsimp only
  have he : ∀ W tW : ℝ,
      statMoment samples (statMean samples weights) weights * W + pw1 * pv1 * pv1
        + pw0 * W * (statMean samples weights - pv0) * (statMean samples weights - pv0) / tW
      = statMoment samples (statMean samples weights) weights * W + pw1 * pv1 ^ 2
        + pw0 * W * (statMean samples weights - pv0) ^ 2 / tW := by
    intro W tW
    ring
  rw [he]

/-- Witness for C3: the spec's golden example, a single sample `[5]` with
weight `[1]` against the prior value `[0, 1]`, weight `[1, 1]`. -/
theorem fitPrior_prior_update_witness :
    (([(1 : ℝ)] : List ℝ).length = 0 ∨
      ([(5 : ℝ)] : List ℝ).length = ([(1 : ℝ)] : List ℝ).length) ∧
    FitPrior [(5 : ℝ)] [1] [0, 1] [1, 1] =
      Except.ok (⟨5 / 2, Real.sqrt (27 / 4)⟩, [5 / 2, Real.sqrt (27 / 4)], [2, 2]) := by
  refine ⟨Or.inr rfl, ?_⟩
  rw [fitPrior_prior_update [(5 : ℝ)] [1] 0 1 1 1 (Or.inr rfl)]
  norm_num [statMean, statMoment]

/-- C4: `Quantile p` fails exactly when `p < 0` or `p > 1`; the boundary
values are not errors: `Quantile 0` is negative infinity and `Quantile 1`
positive infinity, and on `[0,1]` the result is
`mean + scale * standardizedQuantile p`. -/
theorem quantile_domain_and_boundaries (mu sigma p : ℝ) (hs : 0 < sigma) :
    ((∃ e, Quantile ⟨mu, sigma⟩ p = Except.error e) ↔ (p < 0 ∨ p > 1)) ∧
    Quantile ⟨mu, sigma⟩ 0 = Except.ok Xreal.neg_inf ∧
    Quantile ⟨mu, sigma⟩ 1 = Except.ok Xreal.pos_inf ∧
    (0 ≤ p → p ≤ 1 → ∀ z : ℝ, zQuantile p = Xreal.finite z →
      Quantile ⟨mu, sigma⟩ p = Except.ok (Xreal.finite (mu + sigma * z))) := by
  refine ⟨?_, ?_, ?_, ?_⟩
  · unfold Quantile
    by_cases hp : p < 0 ∨ p > 1
    · rw [if_pos hp]
      simp [hp]
    · rw [if_neg hp]
      simp [hp]
  · unfold Quantile
    rw [if_neg (by norm_num : ¬((0 : ℝ) < 0 ∨ (0 : ℝ) > 1))]
    have h : zQuantile (0 : ℝ) = Xreal.neg_inf := by
      unfold zQuantile
      rw [if_neg (by norm_num : ¬(0 : ℝ) = 1), if_pos rfl]
    rw [h]
    show Except.ok (if 0 < sigma then Xreal.neg_inf else _) = _
    rw [if_pos hs]
  · unfold Quantile
    rw [if_neg (by norm_num : ¬((1 : ℝ) < 0 ∨ (1 : ℝ) > 1))]
    have h : zQuantile (1 : ℝ) = Xreal.pos_inf := by
      unfold zQuantile
      rw [if_pos rfl]
    rw [h]
    show Except.ok (if 0 < sigma then Xreal.pos_inf else _) = _
    rw [if_pos hs]
  · intro hp0 hp1 z hz
    unfold Quantile
    rw [if_neg (by push_neg; exact ⟨hp0, hp1⟩), hz]
    rfl

/-- Witness for C4 at `mu = 0`, `sigma = 1`, `p = 2`. -/
theorem quantile_domain_and_boundaries_witness :
    (0 : ℝ) < 1 ∧
    (((∃ e, Quantile ⟨0, 1⟩ 2 = Except.error e) ↔ ((2 : ℝ) < 0 ∨ (2 : ℝ) > 1)) ∧
      Quantile ⟨0, 1⟩ 0 = Except.ok Xreal.neg_inf ∧
      Quantile ⟨0, 1⟩ 1 = Except.ok Xreal.pos_inf ∧
      ((0 : ℝ) ≤ 2 → (2 : ℝ) ≤ 1 → ∀ z : ℝ, zQuantile 2 = Xreal.finite z →
        Quantile ⟨0, 1⟩ 2 = Except.ok (Xreal.finite (0 + 1 * z)))) :=
  ⟨by norm_num, quantile_domain_and_boundaries 0 1 2 (by norm_num)⟩

/-- C5: `Fit` with no prior sets the mean to the weighted sample mean and
the scale to the square root of the uncorrected weighted second central
moment. -/
theorem fit_no_prior (samples weights : List ℝ)
    (h : weights.length = 0 ∨ samples.length = weights.length) :
    Fit samples weights =
      (let m := statMean samples weights
       let sumWeights : ℝ :=
         if weights.length = 0 then (samples.length : ℝ) else weights.sum
       Except.ok (⟨m, Real.sqrt (statMoment samples m weights)⟩,
         [m, Real.sqrt (statMoment samples m weights)],
         [sumWeights, sumWeights])) := by
  have h1 : ¬(weights.length ≠ 0 ∧ samples.length ≠ weights.length) := by
    rcases h with h | h <;> simp [h]
  have h2 : Fit samples weights = fitPriorBody samples weights [] [] false := by
    unfold Fit FitPrior
    rw [if_neg h1]
    norm_num
  have h3 : fitPriorBody samples weights [] [] false =
      (let m := statMean samples weights
       let v := statMoment samples m weights
       let sumWeights : ℝ :=
         if weights.length = 0 then (samples.length : ℝ) else weights.sum
       Except.ok (⟨m * sumWeights / sumWeights, Real.sqrt (v * sumWeights / sumWeights)⟩,
         [m * sumWeights / sumWeights, Real.sqrt (v * sumWeights / sumWeights)],
         [sumWeights, sumWeights])) := rfl
  rw [h2, h3]
  dsimp only
  -- cancel the weight factor: every branch of statMean/statMoment divides
  -- by the same total, so the cancellation also holds when that total is 0
  have key : ∀ a W : ℝ, a / W * W / W = a / W := by
    intro a W
    rcases eq_or_ne W 0 with hW | hW
    · simp [hW]
    · field_simp
  by_cases hw : weights = []
  · subst hw
    simp only [statMean, statMoment, List.length_nil, if_pos, if_true, reduceIte]
    rw [key, key]
  · simp only [statMean, statMoment, List.length_eq_zero, if_neg hw]
    rw [key, key]

/-- Witness for C5: the unweighted samples `[1,2,3]` give mean `2` and
scale `sqrt(2/3)`. -/
theorem fit_no_prior_witness :
    (([] : List ℝ).length = 0 ∨
      ([(1 : ℝ), 2, 3] : List ℝ).length = ([] : List ℝ).length) ∧
    Fit [(1 : ℝ), 2, 3] [] =
      Except.ok (⟨2, Real.sqrt (2 / 3)⟩, [2, Real.sqrt (2 / 3)], [3, 3]) := by
  refine ⟨Or.inl rfl, ?_⟩
  rw [fit_no_prior [(1 : ℝ), 2, 3] [] (Or.inl rfl)]
  norm_num [statMean, statMoment]

/-- C6 (counterexample): with samples `[1]`, no weights, `priorValue = [0]`
and `priorWeight = [1]`, none of the claim's four enumerated failure cases
holds, yet `FitPrior` aborts — with the runtime index-out-of-range fault
raised by `priorWeight[1]` — so the claimed "exactly" is false. -/
theorem fitPrior_failure_cases_counterexample :
    FitPrior [(1 : ℝ)] [] [0] [1] = Except.error DistErr.indexOutOfRange ∧
    ¬((([] : List ℝ).length ≠ 0 ∧ ([(1 : ℝ)] : List ℝ).length ≠ ([] : List ℝ).length) ∨
      ([(0 : ℝ)] : List ℝ).length ≠ ([(1 : ℝ)] : List ℝ).length ∨
      2 < ([(0 : ℝ)] : List ℝ).length ∨ 2 < ([(1 : ℝ)] : List ℝ).length ∨
      (([(0 : ℝ)] : List ℝ).length = 0 ∧ ([(1 : ℝ)] : List ℝ).length ≠ 0) ∨
      (([(0 : ℝ)] : List ℝ).length ≠ 0 ∧ ([(1 : ℝ)] : List ℝ).length = 0)) :=
  ⟨rfl, by norm_num⟩

/-- C6 (amended): `FitPrior` aborts, producing no partial result, exactly
when weights are provided with a length different from the samples; the
prior arrays have different lengths; either prior array is longer than 2;
exactly one of them is non-empty; or — the case the claim misses — both
prior arrays have length exactly 1, which trips an out-of-range access
instead of a validation message. -/
theorem fitPrior_failure_cases_amended (s w pv pw : List ℝ) :
    (∃ e, FitPrior s w pv pw = Except.error e) ↔
      ((w.length ≠ 0 ∧ s.length ≠ w.length) ∨ pv.length ≠ pw.length ∨
        2 < pv.length ∨ 2 < pw.length ∨
        (pv.length = 0 ∧ pw.length ≠ 0) ∨ (pv.length ≠ 0 ∧ pw.length = 0) ∨
        (pv.length = 1 ∧ pw.length = 1)) := by
  unfold FitPrior
  by_cases h1 : w.length ≠ 0 ∧ s.length ≠ w.length
  · rw [if_pos h1]
    simp [h1]
  · rw [if_neg h1]
    by_cases h2 : pv.length ≠ pw.length
    · rw [if_pos h2]
      simp [h1, h2]
    · rw [if_neg h2]
      push_neg at h2
      by_cases h3 : pv.length > 2
      · rw [if_pos h3]
        simp [h1, h3]
      · rw [if_neg h3]
        have hcase : pv.length = 0 ∨ pv.length = 1 ∨ pv.length = 2 := by omega
        rcases hcase with h0 | h0 | h0
        · obtain rfl : pv = [] := List.length_eq_zero.mp h0
          obtain rfl : pw = [] := List.length_eq_zero.mp (h2 ▸ h0)
          rw [if_pos (by simp), if_pos (by simp)]
          obtain ⟨out, hout⟩ := fitPriorBody_noPrior s w ([] : List ℝ) ([] : List ℝ)
          rw [hout]
          constructor
          · rintro ⟨e, he⟩
            exact absurd he (by simp)
          · intro hcon
            exfalso
            rcases hcon with hA | hB
            · exact h1 hA
            · simp only [List.length_cons, List.length_nil] at hB
              omega
        · obtain ⟨a, rfl⟩ := List.length_eq_one.mp h0
          obtain ⟨b, rfl⟩ := List.length_eq_one.mp (h2 ▸ h0)
          rw [if_neg (by simp)]
          rw [fitPriorBody_one]
          simp
        · obtain ⟨a, b, rfl⟩ := List.length_eq_two.mp h0
          obtain ⟨c, d, rfl⟩ := List.length_eq_two.mp (h2 ▸ h0)
          rw [if_neg (by simp)]
          obtain ⟨out, hout⟩ := fitPriorBody_two s w a b c d
          rw [hout]
          constructor
          · rintro ⟨e, he⟩
            exact absurd he (by simp)
          · intro hcon
            exfalso
            rcases hcon with hA | hB
            · exact h1 hA
            · simp only [List.length_cons, List.length_nil] at hB
              omega

/-- C7: `rateval` returns `P(x)/Q(x)`, the ratio of the two polynomials
whose coefficient lists are `a` and `b` (index 0 the constant term, the
last index the leading term), each evaluated by Horner's method. -/
theorem rateval_horner_ratio (a b : List ℝ) (x : ℝ) (ha : a ≠ []) (hb : b ≠ []) :
    rateval a b x =
      (∑ i ∈ Finset.range a.length, a.getD i 0 * x ^ i) /
      (∑ i ∈ Finset.range b.length, b.getD i 0 * x ^ i) := by
  unfold rateval
  rw [horner_eq_sum, horner_eq_sum]

/-- Witness for C7 at `a = [1,2]`, `b = [1]`, `x = 3`. -/
theorem rateval_horner_ratio_witness :
    ([(1 : ℝ), 2] : List ℝ) ≠ [] ∧ ([(1 : ℝ)] : List ℝ) ≠ [] ∧
    rateval [(1 : ℝ), 2] [(1 : ℝ)] 3 =
      (∑ i ∈ Finset.range ([(1 : ℝ), 2] : List ℝ).length,
        ([(1 : ℝ), 2] : List ℝ).getD i 0 * 3 ^ i) /
      (∑ i ∈ Finset.range ([(1 : ℝ)] : List ℝ).length,
        ([(1 : ℝ)] : List ℝ).getD i 0 * 3 ^ i) :=
  ⟨by simp, by simp, rateval_horner_ratio [(1 : ℝ), 2] [(1 : ℝ)] 3 (by simp) (by simp)⟩

/-- C8: for every `(mean, scale)` with `scale > 0`, `Quantile 0.5` equals
the mean exactly: the central branch fires with `dp = 0`, the standardized
quantile is `0`, and the affine transform returns the mean unchanged. -/
theorem quantile_half_eq_mean (mu sigma : ℝ) (hs : 0 < sigma) :
    zQuantile (0.5 : ℝ) = Xreal.finite 0 ∧
    Quantile ⟨mu, sigma⟩ (0.5 : ℝ) = Except.ok (Xreal.finite mu) := by
  have h : zQuantile (0.5 : ℝ) = Xreal.finite 0 := by
    unfold zQuantile
    rw [if_neg (by norm_num : ¬(0.5 : ℝ) = 1), if_neg (by norm_num : ¬(0.5 : ℝ) = 0),
      if_pos (by norm_num : |(0.5 : ℝ) - 0.5| ≤ 0.425)]
    unfold zQuantSmall
    norm_num
  refine ⟨h, ?_⟩
  unfold Quantile
  rw [if_neg (by norm_num : ¬((0.5 : ℝ) < 0 ∨ (0.5 : ℝ) > 1)), h]
  show Except.ok (Xreal.finite (mu + sigma * 0)) = _
  norm_num

/-- Witness for C8 at `mu = 3`, `sigma = 1`. -/
theorem quantile_half_eq_mean_witness :
    (0 : ℝ) < 1 ∧
    (zQuantile (0.5 : ℝ) = Xreal.finite 0 ∧
      Quantile ⟨3, 1⟩ (0.5 : ℝ) = Except.ok (Xreal.finite 3)) :=
  ⟨by norm_num, quantile_half_eq_mean 3 1 (by norm_num)⟩

/-- C9: for every error-function collaborator, every finite `x` and every
Normal distribution with `scale > 0`, `Survival x + CDF x = 1`, with
`Survival` computed by its own complementary form
`0.5 * (1 - erf((x - mean)/(scale * sqrt 2)))` (see its definition) rather
than as `1 - CDF x`. -/
theorem survival_add_cdf_eq_one (erf : ℝ → ℝ) (mu sigma x : ℝ) (hs : 0 < sigma) :
    Survival erf ⟨mu, sigma⟩ x + CDF erf ⟨mu, sigma⟩ x = 1 := by
  unfold Survival CDF
  ring

/-- Witness for C9 with the identity as the error function, at the
standard normal and `x = 0`. -/
theorem survival_add_cdf_eq_one_witness :
    (0 : ℝ) < 1 ∧
    Survival (fun t => t) ⟨0, 1⟩ 0 + CDF (fun t => t) ⟨0, 1⟩ 0 = 1 :=
  ⟨by norm_num, survival_add_cdf_eq_one (fun t => t) 0 1 0 (by norm_num)⟩

/-- C10: the two dedicated partial-prior fault branches of `FitPrior` are
unreachable: no input ever produces their faults (first conjunct), because
any call supplying exactly one of `priorValue`/`priorWeight` non-empty that
passes the weights check already aborts at the earlier length-equality
check with the prior-length-mismatch fault (second conjunct). -/
theorem partial_prior_branches_unreachable (s w pv pw : List ℝ) :
    (∀ e, FitPrior s w pv pw = Except.error e →
      e ≠ DistErr.priorWeightWithoutValue ∧ e ≠ DistErr.priorValueWithoutWeight) ∧
    (((pv.length = 0 ∧ pw.length ≠ 0) ∨ (pv.length ≠ 0 ∧ pw.length = 0)) →
      ¬(w.length ≠ 0 ∧ s.length ≠ w.length) →
      FitPrior s w pv pw = Except.error DistErr.priorLengthMismatch) := by
  constructor
  · intro e
    unfold FitPrior
    split_ifs with h1 h2 h3 h4 h5 h6 <;> intro he
    · injection he with h
      subst h
      exact ⟨by decide, by decide⟩
    · injection he with h
      subst h
      exact ⟨by decide, by decide⟩
    · injection he with h
      subst h
      exact ⟨by decide, by decide⟩
    · -- the body with prior = false always succeeds
      obtain ⟨out, hout⟩ := fitPriorBody_noPrior s w pv pw
      rw [hout] at he
      exact absurd he (by simp)
    · -- dedicated partial-prior branch: contradicts the passed length check
      exfalso
      omega
    · exfalso
      omega
    · -- the body with prior = true: lengths are equal, nonzero, at most 2
      push_neg at h2
      have hlen : pv.length = 1 ∨ pv.length = 2 := by omega
      rcases hlen with h0 | h0
      · obtain ⟨a, rfl⟩ := List.length_eq_one.mp h0
        obtain ⟨b, rfl⟩ := List.length_eq_one.mp (h2 ▸ h0)
        rw [fitPriorBody_one] at he
        injection he with h
        subst h
        exact ⟨by decide, by decide⟩
      · obtain ⟨a, b, rfl⟩ := List.length_eq_two.mp h0
        obtain ⟨c, d, rfl⟩ := List.length_eq_two.mp (h2 ▸ h0)
        obtain ⟨out, hout⟩ := fitPriorBody_two s w a b c d
        rw [hout] at he
        exact absurd he (by simp)
  · intro hx h1
    have hne : pv.length ≠ pw.length := by omega
    unfold FitPrior
    rw [if_neg h1, if_pos hne]

/-- Witness for C10: a prior weight `[1]` supplied without a value aborts
with the prior-length-mismatch fault, not the dedicated message. -/
theorem partial_prior_branches_unreachable_witness :
    FitPrior [(1 : ℝ)] [] [] [1] = Except.error DistErr.priorLengthMismatch :=
  (partial_prior_branches_unreachable [(1 : ℝ)] [] [] [1]).2
    (Or.inl ⟨rfl, by norm_num⟩) (by norm_num)

end dist
